import Mathlib

/-
Verification of the checkpoint/versioning coordinator and conflict-aware
edit applier of DesktopCommanderMCP, as a shallow embedding in Lean 4.

Sources embedded:
  * src/src/handlers/edit-search-handlers.ts  (performSearchReplace, handleSearchCode)
  * src/src/tools/batch-operations.ts         (createSnapshotsForPendingChanges,
                                               scheduleSnapshotCreation, trackFileChange)
  * src/src/tools/git.ts                      (getFileHistory, revertFile, getGitStatus,
                                               commitChanges contracts)
  * src/unnamed/part_002                      (withTimeout)
  * src/unnamed/part_001                      (debounced scheduling variant)

Strings are modelled as `List Char` where index arithmetic matters
(JavaScript `String.prototype.indexOf` / `substring`), and as Lean `String`
elsewhere.  Backend (git / filesystem / subprocess) calls are modelled as
`Except String`-valued functions supplied through a backend record, so that
a JavaScript `throw` is an `Except.error` and a `try/catch` is a `match`.
-/

namespace DesktopCommander

/-! ## JavaScript string primitives -/

/-- JavaScript `content.indexOf(pat)`: index of the first occurrence of `pat`
as an exact substring of `content`, `none` when `indexOf` returns `-1`.
An empty pattern matches at index 0, as in JavaScript. -/
def indexOf? (pat : List Char) : List Char → Option Nat
  | [] => if pat.isPrefixOf [] then some 0 else none
  | c :: rest =>
    if pat.isPrefixOf (c :: rest) then some 0
    else (indexOf? pat rest).map (fun n => n + 1)

/-- JavaScript `str.replace(pat, rep)` with a string pattern: replaces only
the first occurrence. -/
def replaceFirst (content pat rep : List Char) : List Char :=
  match indexOf? pat content with
  | none => content
  | some i => content.take i ++ rep ++ content.drop (i + pat.length)

/-- JavaScript `[...new Set(l)]`: de-duplication keeping the first
occurrence of each element, in order. -/
def dedup (l : List String) : List String :=
  l.foldl (fun acc x => if acc.contains x then acc else acc ++ [x]) []

/-! ## Conflict-aware edit applier (performSearchReplace) -/

/-- A `ServerResult` as produced by the handler: the single text block and
the optional `isError` flag. -/
structure ToolResult where
  text : String
  isError : Bool
deriving DecidableEq

/-- Observable external actions of `performSearchReplace`, in program
order.  Each `await`ed call appears when (and only when) the source reaches
it. -/
inductive Event
  | readFile (path : String)
  | trackFileChange (path : String)
  | writeFile (path : String) (content : List Char)
deriving DecidableEq

/-- The full outcome of one `performSearchReplace` run: the returned
`ServerResult`, the content written to disk (if any), and the ordered trace
of external calls. -/
structure SROutcome where
  result : ToolResult
  written : Option (List Char)
  trace : List Event
deriving DecidableEq

/-- performSearchReplace from src/src/handlers/edit-search-handlers.ts
(lines 125–168): read the file, look for the first occurrence of
`block.search`; if absent return the stale-content error without mutating
anything; if present, `await trackFileChange` and only then write
`substring(0,i) + replace + substring(i + search.length)`. -/
def performSearchReplace (filePath : String) (content search repl : List Char) :
    SROutcome :=
  match indexOf? search content with
  | none =>
    { result := { text := "Search content not found in " ++ filePath ++
                    ". The file may have been modified since Claude last saw it."
                  isError := true }
      written := none
      trace := [Event.readFile filePath] }
  | some i =>
    let newContent := content.take i ++ repl ++ content.drop (i + search.length)
    { result := { text := "Successfully applied edit to " ++ filePath
                  isError := false }
      written := some newContent
      trace := [Event.readFile filePath,
                Event.trackFileChange filePath,
                Event.writeFile filePath newContent] }

/-! ## indexOf? lemmas -/

theorem indexOf_found (pat : List Char) :
    ∀ (l : List Char) (i : Nat), indexOf? pat l = some i →
      pat.isPrefixOf (l.drop i) = true := by
  intro l
  induction l with
  | nil =>
    intro i h
    cases hp : pat.isPrefixOf ([] : List Char) with
    | true =>
      simp [indexOf?, hp] at h
      subst h
      simpa using hp
    | false => simp [indexOf?, hp] at h
  | cons c rest ih =>
    intro i h
    cases hp : pat.isPrefixOf (c :: rest) with
    | true =>
      simp [indexOf?, hp] at h
      subst h
      simpa using hp
    | false =>
      simp [indexOf?, hp] at h
      obtain ⟨n, hn, hi⟩ := h
      subst hi
      simpa using ih n hn

theorem indexOf_minimal (pat : List Char) :
    ∀ (l : List Char) (i : Nat), indexOf? pat l = some i →
      ∀ j, j < i → pat.isPrefixOf (l.drop j) = false := by
  intro l
  induction l with
  | nil =>
    intro i h j hj
    cases hp : pat.isPrefixOf ([] : List Char) with
    | true =>
      simp [indexOf?, hp] at h
      omega
    | false => simp [indexOf?, hp] at h
  | cons c rest ih =>
    intro i h j hj
    cases hp : pat.isPrefixOf (c :: rest) with
    | true =>
      simp [indexOf?, hp] at h
      omega
    | false =>
      simp [indexOf?, hp] at h
      obtain ⟨n, hn, hi⟩ := h
      subst hi
      cases j with
      | zero => simpa using hp
      | succ j' =>
        have := ih n hn j' (by omega)
        simpa using this

theorem indexOf_present (pat : List Char) :
    ∀ (l : List Char) (k : Nat), pat.isPrefixOf (l.drop k) = true →
      (indexOf? pat l).isSome = true := by
  intro l
  induction l with
  | nil =>
    intro k h
    simp at h
    simp [indexOf?, h]
  | cons c rest ih =>
    intro k h
    cases hp : pat.isPrefixOf (c :: rest) with
    | true => simp [indexOf?, hp]
    | false =>
      cases k with
      | zero =>
        rw [List.drop_zero] at h
        rw [hp] at h
        exact absurd h (by simp)
      | succ k' =>
        have := ih k' (by simpa using h)
        simp [indexOf?, hp]
        simpa [Option.isSome_map] using this

/-! ## Claims C4, C5, C6 about the edit applier -/

/-- C4 (amended): for every content and non-empty searchText occurring in
the content, performSearchReplace locates the first occurrence i (no
earlier position carries a match), and the written content is the prefix
before i, then replaceText, then the suffix after i + searchText.length;
the returned result is the fixed success message, which carries no match
position. -/
theorem applyEdit_first_occurrence (fp : String) (content search repl : List Char)
    (_hne : search ≠ []) (hocc : ∃ k, search.isPrefixOf (content.drop k) = true) :
    ∃ i, indexOf? search content = some i ∧
      search.isPrefixOf (content.drop i) = true ∧
      (∀ j, j < i → search.isPrefixOf (content.drop j) = false) ∧
      (performSearchReplace fp content search repl).written =
        some (content.take i ++ repl ++ content.drop (i + search.length)) ∧
      (performSearchReplace fp content search repl).result =
        { text := "Successfully applied edit to " ++ fp, isError := false } := by
  obtain ⟨k, hk⟩ := hocc
  have hsome := indexOf_present search content k hk
  obtain ⟨i, hi⟩ := Option.isSome_iff_exists.mp hsome
  refine ⟨i, hi, indexOf_found search content i hi,
    indexOf_minimal search content i hi, ?_, ?_⟩
  · simp [performSearchReplace, hi]
  · simp [performSearchReplace, hi]

/-- Witness for C4 at the spec's own test vector: replacing the first
"foo" with "baz" in "foo bar foo" matches at index 0 and writes
"baz bar foo". -/
theorem applyEdit_first_occurrence_witness :
    (∃ i, indexOf? ("foo".data) ("foo bar foo".data) = some i ∧
      ("foo".data).isPrefixOf (("foo bar foo".data).drop i) = true ∧
      (∀ j, j < i → ("foo".data).isPrefixOf (("foo bar foo".data).drop j) = false) ∧
      (performSearchReplace "f.txt" "foo bar foo".data "foo".data "baz".data).written =
        some (("foo bar foo".data).take i ++ "baz".data ++
          ("foo bar foo".data).drop (i + ("foo".data).length)) ∧
      (performSearchReplace "f.txt" "foo bar foo".data "foo".data "baz".data).result =
        { text := "Successfully applied edit to " ++ "f.txt", isError := false }) ∧
    (performSearchReplace "f.txt" "foo bar foo".data "foo".data "baz".data).written =
      some ("baz bar foo".data) :=
  ⟨applyEdit_first_occurrence "f.txt" "foo bar foo".data "foo".data "baz".data
      (by decide) ⟨0, by decide⟩,
    by decide⟩

/-- Counterexample for C4 as stated: the claim asserts the reported match
position is the index of the first occurrence, but the returned result is
a constant success message.  Two inputs whose first occurrences are at
different indices (0 and 2) produce identical reported results, so the
report carries no position. -/
theorem applyEdit_no_position_reported :
    (performSearchReplace "f.txt" "foo".data "foo".data "baz".data).result =
      (performSearchReplace "f.txt" "x foo".data "foo".data "baz".data).result ∧
    indexOf? "foo".data "foo".data = some 0 ∧
    indexOf? "foo".data "x foo".data = some 2 := by
  decide

/-- A non-empty pattern that matches no position below the content's
length matches no position at all (beyond the length every suffix is
empty). -/
theorem notOccursOfBounded (pat l : List Char) (hne : pat ≠ [])
    (h : ∀ k, k < l.length → pat.isPrefixOf (l.drop k) = false) :
    ∀ k, pat.isPrefixOf (l.drop k) = false := by
  intro k
  by_cases hk : k < l.length
  · exact h k hk
  · have hdrop : l.drop k = [] := List.drop_eq_nil_of_le (by omega)
    rw [hdrop]
    cases pat with
    | nil => exact absurd rfl hne
    | cons a t => rfl

/-- C5: when searchText does not occur in the content,
performSearchReplace returns the stale-content error result ("the file may
have been modified since Claude last saw it"), writes nothing, and never
calls trackFileChange (nothing is enrolled). -/
theorem applyEdit_stale_no_mutation (fp : String) (content search repl : List Char)
    (habs : ∀ k, search.isPrefixOf (content.drop k) = false) :
    (performSearchReplace fp content search repl).result =
      { text := "Search content not found in " ++ fp ++
          ". The file may have been modified since Claude last saw it."
        isError := true } ∧
    (performSearchReplace fp content search repl).written = none ∧
    ∀ p, Event.trackFileChange p ∉ (performSearchReplace fp content search repl).trace := by
  have hnone : indexOf? search content = none := by
    cases hi : indexOf? search content with
    | none => rfl
    | some i =>
      have := indexOf_found search content i hi
      rw [habs i] at this
      exact absurd this (by simp)
  refine ⟨?_, ?_, ?_⟩
  · simp [performSearchReplace, hnone]
  · simp [performSearchReplace, hnone]
  · intro p
    simp [performSearchReplace, hnone]

/-- Witness for C5: searching for "zzz" in "foo bar" is stale, mutates
nothing and enrolls nothing. -/
theorem applyEdit_stale_no_mutation_witness :
    (performSearchReplace "f.txt" "foo bar".data "zzz".data "baz".data).result =
      { text := "Search content not found in " ++ "f.txt" ++
          ". The file may have been modified since Claude last saw it."
        isError := true } ∧
    (performSearchReplace "f.txt" "foo bar".data "zzz".data "baz".data).written = none ∧
    ∀ p, Event.trackFileChange p ∉
      (performSearchReplace "f.txt" "foo bar".data "zzz".data "baz".data).trace :=
  applyEdit_stale_no_mutation "f.txt" "foo bar".data "zzz".data "baz".data
    (notOccursOfBounded "zzz".data "foo bar".data (by decide) (by decide))

/-- C6: in every run of performSearchReplace whose trace contains the
write of the new content, the trackFileChange enrollment call occurs at a
strictly earlier position of the trace — the write never precedes the
enrollment. -/
theorem enroll_before_write (fp : String) (content search repl : List Char)
    (j : Nat) (c : List Char)
    (hw : ((performSearchReplace fp content search repl).trace)[j]? =
      some (Event.writeFile fp c)) :
    ∃ i, i < j ∧
      ((performSearchReplace fp content search repl).trace)[i]? =
        some (Event.trackFileChange fp) := by
  cases hi : indexOf? search content with
  | none =>
    exfalso
    rw [performSearchReplace] at hw
    rw [hi] at hw
    match j, hw with
    | 0, hw => simp at hw
  | some i =>
    rw [performSearchReplace] at hw
    rw [hi] at hw
    refine ⟨1, ?_, ?_⟩
    · match j, hw with
      | 2, _ => omega
      | 0, hw => simp at hw
      | 1, hw => simp at hw
    · rw [performSearchReplace, hi]
      rfl

/-- Witness for C6: the concrete trace of a successful edit has the write
at position 2 and the enrollment strictly before it. -/
theorem enroll_before_write_witness :
    ∃ i, i < 2 ∧
      ((performSearchReplace "f.txt" "foo".data "foo".data "baz".data).trace)[i]? =
        some (Event.trackFileChange "f.txt") :=
  enroll_before_write "f.txt" "foo".data "foo".data "baz".data 2 "baz".data (by decide)

/-! ## Snapshot coordinator (batch-operations.ts) -/

/-- Result of getGitStatus (src/src/tools/git.ts): the three working-tree
path lists. -/
structure GitStatus where
  modified : List String
  not_added : List String
  staged : List String
deriving DecidableEq

/-- The version-control backend as seen by the sweep.  A JavaScript
`throw` from a backend call is `Except.error`. -/
structure Backend where
  getGitStatus : String → Except String GitStatus
  commitChanges : String → List String → String → Except String String

/-- One successful per-repository checkpoint: the repository root, the
exact file list passed to commitChanges, and the returned commit hash. -/
structure Snapshot where
  repoRoot : String
  files : List String
  hash : String
deriving DecidableEq

/-- The module-level coordinator state of batch-operations.ts:
`pendingChangesByRepo` (entry order of `Object.entries`, each file set as
its insertion-ordered list), the `commitInProgress` flag and the scheduled
`snapshotTimeoutId` (modelled as the absolute fire time). -/
structure CoordState where
  pending : List (String × List String)
  commitInProgress : Bool
  snapshotTimeoutId : Option Nat
deriving DecidableEq

/-- The commit message built at lines 214–218: the caller's message, or a
generated one naming the single file or the file count. -/
def buildCommitMessage (message : Option String) (fileArray : List String) : String :=
  match message with
  | some m => m
  | none =>
    if fileArray.length = 1 then
      "Project snapshot before editing " ++ fileArray.headD ""
    else
      "Project snapshot before editing " ++ toString fileArray.length ++ " files"

/-- Lines 228–263: concatenate status.modified, status.not_added and
status.staged, de-duplicate, and fall back to the tracked fileArray when
the result is empty. -/
def filesToCommit (status : GitStatus) (fileArray : List String) : List String :=
  let allChangedFiles := dedup (status.modified ++ status.not_added ++ status.staged)
  if allChangedFiles.isEmpty then fileArray else allChangedFiles

/-- The body of the per-repository `try` block (lines 203–286): query the
status, compute the files to commit, commit them.  Any `Except.error` is a
raised exception inside the `try`. -/
def processRepoTry (b : Backend) (message : Option String)
    (repoRoot : String) (fileArray : List String) : Except String Snapshot :=
  let commitMessage := buildCommitMessage message fileArray
  match b.getGitStatus repoRoot with
  | Except.error e => Except.error e
  | Except.ok status =>
    let toCommit := filesToCommit status fileArray
    match b.commitChanges repoRoot toCommit commitMessage with
    | Except.error e => Except.error e
    | Except.ok hash => Except.ok { repoRoot := repoRoot, files := toCommit, hash := hash }

/-- The per-repository `try/catch` (lines 203–296): a raised error is
caught — the snapshot is dropped and the repository's tracked files stay
untouched. -/
def processRepo (b : Backend) (message : Option String)
    (repoRoot : String) (fileArray : List String) : Option Snapshot :=
  (processRepoTry b message repoRoot fileArray).toOption

/-- The `for (const [repoRoot, files] of Object.entries(...))` loop
(lines 198–300): repositories with empty sets are skipped; a successful
commit clears the repository's set (`files.clear()`); a caught failure
leaves it unchanged; every entry is processed regardless of earlier
failures. -/
def sweepLoop (b : Backend) (message : Option String) :
    List (String × List String) → List (String × List String) × List Snapshot
  | [] => ([], [])
  | entry :: rest =>
    let tail := sweepLoop b message rest
    if entry.2.isEmpty then (entry :: tail.1, tail.2)
    else
      match processRepo b message entry.1 entry.2 with
      | some snap => ((entry.1, []) :: tail.1, snap :: tail.2)
      | none => (entry :: tail.1, tail.2)

/-- createSnapshotsForPendingChanges (lines 164–306).  If
`commitInProgress` is set the trigger returns at once, dropped, with no
state change and no commits.  Otherwise the flag is set, the scheduled
timeout is cleared, every repository is processed, and the `finally` block
resets the flag.  The check at line 174 and the assignment at line 182
have no `await` between them, so in the single-threaded cooperative
runtime the check-and-set is atomic; backend failures are modelled by the
`Except`-valued backend and are absorbed inside `processRepo`, which is
why this function is total (never raises). -/
def createSnapshotsForPendingChanges (b : Backend) (message : Option String)
    (s : CoordState) : CoordState × List Snapshot :=
  if s.commitInProgress then (s, [])
  else
    let r := sweepLoop b message s.pending
    ({ pending := r.1, commitInProgress := false, snapshotTimeoutId := none }, r.2)

/-- The characterization of one whole sweep pass: pointwise over the
entry list, a repository's set is cleared exactly when it was non-empty
and its commit succeeded, and the produced snapshots are the successful
ones in entry order. -/
theorem sweepLoop_spec (b : Backend) (message : Option String) :
    ∀ l : List (String × List String),
      sweepLoop b message l =
        (l.map (fun p =>
            (p.1, if p.2.isEmpty = false ∧
                    (processRepoTry b message p.1 p.2).toOption.isSome = true
                  then [] else p.2)),
         l.filterMap (fun p =>
            if p.2.isEmpty then none else (processRepoTry b message p.1 p.2).toOption)) := by
  intro l
  induction l with
  | nil => rfl
  | cons entry rest ih =>
    obtain ⟨root, files⟩ := entry
    cases he : files.isEmpty with
    | true =>
      have hf : files = [] := by
        cases files with
        | nil => rfl
        | cons a t => simp at he
      subst hf
      simp [sweepLoop, ih]
    | false =>
      have hf : files ≠ [] := by
        intro hnil
        rw [hnil] at he
        simp at he
      cases hp : processRepo b message root files with
      | none =>
        have hp' : (processRepoTry b message root files).toOption = none := hp
        simp [sweepLoop, he, ih, hp', hf, hp]
      | some snap =>
        have hp' : (processRepoTry b message root files).toOption = some snap := hp
        simp [sweepLoop, he, ih, hp', hf, processRepo, hp]

/-- A backend whose status query finds nothing and whose commits succeed
with hash "h0". -/
def bOK : Backend :=
  { getGitStatus := fun _ => Except.ok { modified := [], not_added := [], staged := [] }
    commitChanges := fun _ _ _ => Except.ok "h0" }

/-- A backend whose every call raises. -/
def bFail : Backend :=
  { getGitStatus := fun _ => Except.error "status failed"
    commitChanges := fun _ _ _ => Except.error "commit failed" }

/-- A backend that succeeds for repository r1 and fails for every other
repository. -/
def bTwoRepos : Backend :=
  { getGitStatus := fun root =>
      if root = "r1" then Except.ok { modified := [], not_added := [], staged := [] }
      else Except.error "status failed"
    commitChanges := fun root _ _ =>
      if root = "r1" then Except.ok "h1" else Except.error "commit failed" }

/-- Two repositories with pending files, no sweep running. -/
def sTwoRepos : CoordState :=
  { pending := [("r1", ["a.txt"]), ("r2", ["b.txt"])]
    commitInProgress := false
    snapshotTimeoutId := none }

/-- The state with one repository whose pending set holds a.txt, no sweep
running. -/
def sweepStart : CoordState :=
  { pending := [("repo", ["a.txt"])], commitInProgress := false, snapshotTimeoutId := none }

/-- The same state as observed while a sweep is executing: the flag was
set at line 182 and not yet released. -/
def sweepMid : CoordState :=
  { pending := [("repo", ["a.txt"])], commitInProgress := true, snapshotTimeoutId := none }

/-- C1: sweeps are single-flight.  Any trigger arriving while
commitInProgress is set returns immediately with no error, no commit and
no state change — dropped, not queued, so pending enrollments survive for
the next trigger.  Concretely, with a.txt enrolled, a second trigger
arriving mid-sweep commits nothing, while the one running sweep produces
exactly one commit, containing a.txt, and clears the pending set. -/
theorem sweep_single_flight :
    (∀ (b : Backend) (message : Option String) (s : CoordState),
        s.commitInProgress = true →
        createSnapshotsForPendingChanges b message s = (s, [])) ∧
    createSnapshotsForPendingChanges bOK none sweepMid = (sweepMid, []) ∧
    (createSnapshotsForPendingChanges bOK none sweepStart).2 =
      [{ repoRoot := "repo", files := ["a.txt"], hash := "h0" }] ∧
    (createSnapshotsForPendingChanges bOK none sweepStart).1.pending =
      [("repo", [])] := by
  refine ⟨?_, by decide, by decide, by decide⟩
  intro b message s h
  simp [createSnapshotsForPendingChanges, h]

/-- Witness for C1: the dropped-trigger branch at the concrete mid-sweep
state. -/
theorem sweep_single_flight_witness :
    createSnapshotsForPendingChanges bOK none sweepMid = (sweepMid, []) :=
  sweep_single_flight.1 bOK none sweepMid rfl

/-- C2: in a sweep started with the flag clear, a repository's pending
set is cleared exactly when it was non-empty and its commit (including
the status query before it) succeeded; a failed repository's set is left
exactly as it was; and every entry is processed independently — the
result for each repository depends only on that repository, never on an
earlier failure. -/
theorem sweep_clears_iff_commit_succeeds (b : Backend) (message : Option String)
    (s : CoordState) (h : s.commitInProgress = false) :
    (createSnapshotsForPendingChanges b message s).1.pending =
      s.pending.map (fun p =>
        (p.1, if p.2.isEmpty = false ∧
                (processRepoTry b message p.1 p.2).toOption.isSome = true
              then [] else p.2)) ∧
    (createSnapshotsForPendingChanges b message s).2 =
      s.pending.filterMap (fun p =>
        if p.2.isEmpty then none else (processRepoTry b message p.1 p.2).toOption) := by
  rw [createSnapshotsForPendingChanges]
  rw [h]
  simp [sweepLoop_spec b message s.pending]

/-- Witness for C2 over two repositories against a backend that fails on
the second repository only: the first is committed and cleared, the
second keeps its pending set untouched. -/
theorem sweep_clears_iff_commit_succeeds_witness :
    (createSnapshotsForPendingChanges bTwoRepos none sTwoRepos).1.pending =
      sTwoRepos.pending.map (fun p =>
        (p.1, if p.2.isEmpty = false ∧
                (processRepoTry bTwoRepos none p.1 p.2).toOption.isSome = true
              then [] else p.2)) ∧
    (createSnapshotsForPendingChanges bTwoRepos none sTwoRepos).2 =
      sTwoRepos.pending.filterMap (fun p =>
        if p.2.isEmpty then none else (processRepoTry bTwoRepos none p.1 p.2).toOption) :=
  sweep_clears_iff_commit_succeeds bTwoRepos none sTwoRepos rfl

/-- A backend reporting b.txt as modified, committing successfully. -/
def bStatusB : Backend :=
  { getGitStatus := fun _ =>
      Except.ok { modified := ["b.txt"], not_added := [], staged := [] }
    commitChanges := fun _ _ _ => Except.ok "h0" }

/-- Counterexample for C3 as stated: with a.txt pending and the status
query reporting only b.txt as modified, the files passed to the backend
commit are exactly the de-duplicated status lists — the pending file
a.txt, although a member of the claimed union of status lists with the
PendingChangeSet, is not among them.  The pending set is not unioned in;
it is only a fallback for an empty status. -/
theorem sweep_commit_files_counterexample :
    processRepoTry bStatusB none "repo" ["a.txt"] =
      Except.ok { repoRoot := "repo", files := ["b.txt"], hash := "h0" } ∧
    "a.txt" ∈ dedup (["b.txt"] ++ [] ++ [] ++ ["a.txt"]) ∧
    "a.txt" ∉ ["b.txt"] :=
  ⟨rfl, by decide, by decide⟩

/-- C3 (amended): the files passed to the backend commit are the
de-duplicated concatenation of the status lists (modified, untracked,
staged) alone; only when that list is empty does the sweep fall back to
the repository's own PendingChangeSet file list; and when the status
query fails the error is caught per-repository — no commit is attempted
and the snapshot is dropped (the pending set stays, per C2). -/
theorem sweep_commit_files (b : Backend) (message : Option String)
    (root : String) (fileArray : List String) :
    (∀ st, b.getGitStatus root = Except.ok st →
      processRepoTry b message root fileArray =
        (b.commitChanges root (filesToCommit st fileArray)
            (buildCommitMessage message fileArray)).map
          (fun h => { repoRoot := root, files := filesToCommit st fileArray, hash := h }) ∧
      filesToCommit st fileArray =
        (if (dedup (st.modified ++ st.not_added ++ st.staged)).isEmpty
         then fileArray
         else dedup (st.modified ++ st.not_added ++ st.staged))) ∧
    (∀ e, b.getGitStatus root = Except.error e →
      processRepo b message root fileArray = none) := by
  constructor
  · intro st hst
    constructor
    · cases hc : b.commitChanges root (filesToCommit st fileArray)
          (buildCommitMessage message fileArray) with
      | ok h => simp only [processRepoTry, hst, hc, Except.map]
      | error e => simp only [processRepoTry, hst, hc, Except.map]
    · rfl
  · intro e he
    rw [processRepo, processRepoTry]
    rw [he]
    rfl

/-- Witness for C3's amended statement at concrete inputs: the successful
status delivering b.txt leads to a commit of exactly the status files,
and a failing status leads to a dropped snapshot. -/
theorem sweep_commit_files_witness :
    (processRepoTry bStatusB none "repo" ["a.txt"] =
      (bStatusB.commitChanges "repo"
          (filesToCommit { modified := ["b.txt"], not_added := [], staged := [] } ["a.txt"])
          (buildCommitMessage none ["a.txt"])).map
        (fun h => { repoRoot := "repo"
                    files := filesToCommit
                      { modified := ["b.txt"], not_added := [], staged := [] } ["a.txt"]
                    hash := h }) ∧
      filesToCommit { modified := ["b.txt"], not_added := [], staged := [] } ["a.txt"] =
        (if (dedup (["b.txt"] ++ [] ++ [])).isEmpty
         then ["a.txt"] else dedup (["b.txt"] ++ [] ++ []))) ∧
    processRepo bFail none "repo" ["a.txt"] = none :=
  ⟨(sweep_commit_files bStatusB none "repo" ["a.txt"]).1
      { modified := ["b.txt"], not_added := [], staged := [] } rfl,
    (sweep_commit_files bFail none "repo" ["a.txt"]).2 "status failed" rfl⟩

/-- C7: every backend error raised inside the per-repository try block is
caught there (never propagating out of the sweep), and a sweep that
actually starts — entered with the flag clear — always terminates with
commitInProgress reset to false and the scheduled timeout cleared,
whatever the backend does; so a later trigger is never blocked by a stuck
flag.  The sweep itself is a total function of the state and backend: no
execution path raises to the caller. -/
theorem sweep_never_raises_flag_reset :
    (∀ (b : Backend) (message : Option String) (root : String)
        (fileArray : List String) (e : String),
      processRepoTry b message root fileArray = Except.error e →
      processRepo b message root fileArray = none) ∧
    (∀ (b : Backend) (message : Option String) (s : CoordState),
      s.commitInProgress = false →
      (createSnapshotsForPendingChanges b message s).1.commitInProgress = false ∧
      (createSnapshotsForPendingChanges b message s).1.snapshotTimeoutId = none) := by
  constructor
  · intro b message root fileArray e he
    rw [processRepo]
    rw [he]
    rfl
  · intro b message s h
    rw [createSnapshotsForPendingChanges]
    rw [h]
    exact ⟨rfl, rfl⟩

/-- Witness for C7 with a backend whose every call raises: the raised
error is absorbed and the flag ends false. -/
theorem sweep_never_raises_flag_reset_witness :
    processRepo bFail none "repo" ["a.txt"] = none ∧
    (createSnapshotsForPendingChanges bFail none sweepStart).1.commitInProgress = false ∧
    (createSnapshotsForPendingChanges bFail none sweepStart).1.snapshotTimeoutId = none :=
  ⟨sweep_never_raises_flag_reset.1 bFail none "repo" ["a.txt"] "status failed" rfl,
    sweep_never_raises_flag_reset.2 bFail none sweepStart rfl⟩

/-! ## Debounced scheduling (src/unnamed/part_001) -/

/-- The scheduling state of the debounced variant: the activity timestamp,
the single scheduled timeout (as its absolute fire time; `none` when no
timer is live — `clearTimeout` plus replacement is modelled by
overwriting this field) and the commitInProgress flag. -/
structure DebounceState where
  lastTrackTimestamp : Nat
  snapshotTimer : Option Nat
  commitInProgress : Bool
deriving DecidableEq

/-- The scheduling tail of trackFileChange (part_001 lines 37–46): update
lastTrackTimestamp, then — only when no commit is in progress — call
scheduleSnapshotCreation, which clears any existing timeout and sets a
new one windowMs in the future. -/
def trackFileChangeDebounce (windowMs now : Nat) (s : DebounceState) : DebounceState :=
  { s with
    lastTrackTimestamp := now
    snapshotTimer := if s.commitInProgress then s.snapshotTimer
                     else some (now + windowMs) }

/-- The timeout callback (part_001 lines 68–80), runnable only for the
currently live timer: if at least windowMs elapsed since the last
enrollment, a sweep runs (and clears the timer handle); otherwise
scheduleSnapshotCreation pushes the timer out by another windowMs.  The
returned Bool records whether the sweep ran. -/
def snapshotTimerFire (windowMs now : Nat) (s : DebounceState) : DebounceState × Bool :=
  if s.snapshotTimer = some now then
    if windowMs ≤ now - s.lastTrackTimestamp then
      ({ s with snapshotTimer := none }, true)
    else
      ({ s with snapshotTimer := some (now + windowMs) }, false)
  else (s, false)

/-- A timeline event: an enrollment at time t, or the arrival of time t at
which a previously set timeout would fire (a no-op if that timeout was
cleared/replaced meanwhile). -/
inductive TimedEvent
  | track (t : Nat)
  | fire (t : Nat)
deriving DecidableEq

/-- Process one timeline event, accumulating the times at which sweeps
ran. -/
def debounceStep (windowMs : Nat) (acc : DebounceState × List Nat) (e : TimedEvent) :
    DebounceState × List Nat :=
  match e with
  | TimedEvent.track t => (trackFileChangeDebounce windowMs t acc.1, acc.2)
  | TimedEvent.fire t =>
    let r := snapshotTimerFire windowMs t acc.1
    (r.1, if r.2 then acc.2 ++ [t] else acc.2)

/-- Run a whole timeline from an initial state. -/
def debounceRun (windowMs : Nat) (s : DebounceState) (es : List TimedEvent) :
    DebounceState × List Nat :=
  es.foldl (debounceStep windowMs) (s, [])

/-- C8 (amended): under the debounced policy, every enrollment made while
no sweep is in progress updates the activity timestamp and (re)schedules
the single trailing-edge timer to windowMs later; when the live timer
fires and an enrollment occurred within the last windowMs it reschedules
instead of sweeping; a sweep runs at a fire only when the live timer
fires and at least windowMs elapsed since the last enrollment; and
enrollments at t=0, t=50, t=100 with a 200ms window produce exactly one
sweep, at t=300 ≥ 100+200, the fire times of the two superseded timers
being no-ops. -/
theorem debounced_policy :
    (∀ (windowMs now : Nat) (s : DebounceState), s.commitInProgress = false →
      trackFileChangeDebounce windowMs now s =
        { s with lastTrackTimestamp := now, snapshotTimer := some (now + windowMs) }) ∧
    (∀ (windowMs now : Nat) (s : DebounceState), s.snapshotTimer = some now →
      now - s.lastTrackTimestamp < windowMs →
      snapshotTimerFire windowMs now s =
        ({ s with snapshotTimer := some (now + windowMs) }, false)) ∧
    (∀ (windowMs now : Nat) (s : DebounceState),
      (snapshotTimerFire windowMs now s).2 = true →
      s.snapshotTimer = some now ∧ windowMs ≤ now - s.lastTrackTimestamp) ∧
    (debounceRun 200
        { lastTrackTimestamp := 0, snapshotTimer := none, commitInProgress := false }
        [TimedEvent.track 0, TimedEvent.track 50, TimedEvent.track 100,
         TimedEvent.fire 200, TimedEvent.fire 250, TimedEvent.fire 300] =
      ({ lastTrackTimestamp := 100, snapshotTimer := none, commitInProgress := false },
        [300]) ∧
      100 + 200 ≤ 300) := by
  refine ⟨?_, ?_, ?_, by decide, by decide⟩
  · intro windowMs now s h
    simp [trackFileChangeDebounce, h]
  · intro windowMs now s ht hlt
    have hn : ¬ (windowMs ≤ now - s.lastTrackTimestamp) := by omega
    simp [snapshotTimerFire, ht, hn]
  · intro windowMs now s h
    by_cases ht : s.snapshotTimer = some now
    · by_cases hw : windowMs ≤ now - s.lastTrackTimestamp
      · exact ⟨ht, hw⟩
      · simp [snapshotTimerFire, ht, hw] at h
    · simp [snapshotTimerFire, ht] at h

/-- Witness for C8's amended statement: an enrollment at t=5 with a 200ms
window and no sweep running schedules the timer for t=205. -/
theorem debounced_policy_witness :
    trackFileChangeDebounce 200 5
        { lastTrackTimestamp := 0, snapshotTimer := none, commitInProgress := false } =
      { lastTrackTimestamp := 5, snapshotTimer := some (5 + 200),
        commitInProgress := false } :=
  debounced_policy.1 200 5
    { lastTrackTimestamp := 0, snapshotTimer := none, commitInProgress := false } rfl

/-- Counterexample for C8 as stated: an enrollment arriving while a sweep
is in progress does not (re)schedule any timer — the claimed timer at
t = 5 + 200 is never set. -/
theorem debounced_policy_counterexample :
    (trackFileChangeDebounce 200 5
        { lastTrackTimestamp := 0, snapshotTimer := none, commitInProgress := true }
      ).snapshotTimer = none ∧
    (none : Option Nat) ≠ some (5 + 200) := by
  decide

/-! ## History and revert (src/src/tools/git.ts) -/

/-- One parsed log record from the pretty-printed git log line. -/
structure LogRecord where
  hash : String
  date : String
  message : String
  author : String
deriving DecidableEq

/-- The subprocess-level git backend used by getFileHistory and
revertFile.  isGitRepository never throws (its own catch returns false);
the others are `Except`-valued.  parseLine models `JSON.parse` of one log
line, which may throw. -/
structure GitBackend where
  isGitRepository : String → Bool
  getRepositoryRoot : String → Except String String
  checkout : String → String → String → Except String Unit
  log : String → String → Nat → Except String String
  parseLine : String → Except String LogRecord

/-- The repository-relative path computation
`filePath.replace(repoRoot + "/", "")` (first occurrence only, as in
JavaScript). -/
def relativeTo (repoRoot filePath : String) : String :=
  String.mk (replaceFirst filePath.data (repoRoot ++ "/").data [])

/-- revertFile (git.ts lines 100–120): inside a repository, resolve the
root and check out the file from the given commit; the catch logs and
rethrows, so any backend failure propagates unchanged to the caller.
Outside a repository the call is a no-op. -/
def revertFile (b : GitBackend) (filePath commitHash : String) : Except String Unit :=
  if b.isGitRepository filePath then
    match b.getRepositoryRoot filePath with
    | Except.error e => Except.error e
    | Except.ok repoRoot =>
      b.checkout repoRoot commitHash (relativeTo repoRoot filePath)
  else Except.ok ()

/-- The body of getFileHistory's try block (git.ts lines 127–144):
resolve the root, run the log call, parse each line. -/
def getFileHistoryTry (b : GitBackend) (filePath : String) (maxCount : Nat) :
    Except String (List LogRecord) :=
  if b.isGitRepository filePath then
    match b.getRepositoryRoot filePath with
    | Except.error e => Except.error e
    | Except.ok repoRoot =>
      match b.log repoRoot (relativeTo repoRoot filePath) maxCount with
      | Except.error e => Except.error e
      | Except.ok output =>
        if output = "" then Except.ok []
        else (output.splitOn "\n").mapM b.parseLine
  else Except.ok []

/-- getFileHistory (git.ts lines 123–153): the catch absorbs every raised
error — it captures, logs and returns the empty list instead of
rethrowing. -/
def getFileHistory (b : GitBackend) (filePath : String) (maxCount : Nat) :
    Except String (List LogRecord) :=
  match getFileHistoryTry b filePath maxCount with
  | Except.ok l => Except.ok l
  | Except.error _ => Except.ok []

/-- A backend inside a repository rooted at /r whose log and checkout
calls both fail. -/
def bLogFail : GitBackend :=
  { isGitRepository := fun _ => true
    getRepositoryRoot := fun _ => Except.ok "/r"
    checkout := fun _ _ _ => Except.error "checkout failed"
    log := fun _ _ _ => Except.error "log failed"
    parseLine := fun line =>
      Except.ok { hash := line, date := "", message := "", author := "" } }

/-- Counterexample for C9 as stated: with a failing backend log call,
getFileHistory does not raise — it returns the normal (empty) history. -/
theorem getFileHistory_absorbs_counterexample :
    getFileHistory bLogFail "/r/f.txt" 10 = Except.ok [] := by
  rfl

/-- C9 (amended): revertFile propagates backend failures directly — for a
path inside a repository its result is exactly the backend checkout
call's result, and a failing root resolution propagates too — while
getFileHistory absorbs every backend failure of its try block and returns
an empty history instead of raising. -/
theorem history_revert_propagation :
    (∀ (b : GitBackend) (fp commitHash repoRoot : String),
      b.isGitRepository fp = true →
      b.getRepositoryRoot fp = Except.ok repoRoot →
      revertFile b fp commitHash = b.checkout repoRoot commitHash (relativeTo repoRoot fp)) ∧
    (∀ (b : GitBackend) (fp e : String),
      b.isGitRepository fp = true →
      b.getRepositoryRoot fp = Except.error e →
      revertFile b fp "c" = Except.error e) ∧
    (∀ (b : GitBackend) (fp : String) (n : Nat) (e : String),
      getFileHistoryTry b fp n = Except.error e →
      getFileHistory b fp n = Except.ok []) := by
  refine ⟨?_, ?_, ?_⟩
  · intro b fp commitHash repoRoot hrepo hroot
    rw [revertFile]
    rw [hrepo]
    rw [hroot]
    rfl
  · intro b fp e hrepo hroot
    rw [revertFile]
    rw [hrepo]
    rw [hroot]
    rfl
  · intro b fp n e he
    rw [getFileHistory]
    rw [he]

/-- Witness for C9's amended statement: a failing checkout makes
revertFile raise, while the failing log leaves getFileHistory returning
an empty history. -/
theorem history_revert_propagation_witness :
    revertFile bLogFail "/r/f.txt" "abc" =
      bLogFail.checkout "/r" "abc" (relativeTo "/r" "/r/f.txt") ∧
    getFileHistory bLogFail "/r/f.txt" 10 = Except.ok [] :=
  ⟨history_revert_propagation.1 bLogFail "/r/f.txt" "abc" "/r" rfl rfl,
    history_revert_propagation.2.2 bLogFail "/r/f.txt" 10 "log failed" rfl⟩

/-! ## withTimeout and handleSearchCode (src/unnamed/part_002,
src/src/handlers/edit-search-handlers.ts) -/

/-- How the wrapped operation's promise behaves: settles (fulfilled or
rejected) at time t, or never settles. -/
inductive Outcome (α : Type)
  | resolves (t : Nat) (v : α)
  | rejects (t : Nat) (e : String)
  | hangs

/-- How the promise returned by withTimeout settles. -/
inductive Settle (α : Type)
  | resolved (v : α)
  | rejected (e : String)
deriving DecidableEq

/-- withTimeout (part_002 lines 80–114).  The executor installs a timeout
that resolves the default value at the deadline, a then-handler that
resolves the operation's value, and a catch-handler that resolves the
default value, all guarded by the isCompleted flag; reject is never
called.  An operation fulfilling strictly before the deadline wins the
race; a rejection resolves the default whichever side of the deadline it
lands on (the catch and the timeout resolve the same value); a hanging
operation is resolved by the timeout. -/
def withTimeout {α : Type} (operation : Outcome α) (timeoutMs : Nat)
    (defaultValue : α) : Settle α :=
  match operation with
  | Outcome.resolves t v =>
    if t < timeoutMs then Settle.resolved v else Settle.resolved defaultValue
  | Outcome.rejects _ _ => Settle.resolved defaultValue
  | Outcome.hangs => Settle.resolved defaultValue

/-- One search hit as produced by searchTextInFiles. -/
structure SearchHit where
  file : String
  line : Nat
  matchText : String
deriving DecidableEq

/-- The VS-Code-like formatting loop of handleSearchCode
(lines 108–121): a header line per file group, then one indented line per
hit, trimmed at the end. -/
def formatResults (results : List SearchHit) : String :=
  (results.foldl
    (fun acc r =>
      let updated :=
        if r.file = acc.1 then acc
        else (r.file, acc.2 ++ "\n" ++ r.file ++ ":\n")
      (updated.1, updated.2 ++ "  " ++ toString r.line ++ ": " ++ r.matchText ++ "\n"))
    ("", "")).2.trim

/-- handleSearchCode (lines 49–123): `parsed.timeoutMs || 30000` (a zero
or missing timeout falls back to 30000), the search wrapped in
withTimeout with the empty list as default, and the result message — the
timeout-or-no-match text on an empty list, the formatted hits
otherwise. -/
def handleSearchCode (operation : Outcome (List SearchHit))
    (timeoutMsArg : Option Nat) : ToolResult :=
  let timeoutMs := match timeoutMsArg with
    | some t => if t = 0 then 30000 else t
    | none => 30000
  let results := match withTimeout operation timeoutMs [] with
    | Settle.resolved v => v
    | Settle.rejected _ => []
  if results.length = 0 then
    if timeoutMs > 0 then
      { text := "No matches found or search timed out after " ++
          toString timeoutMs ++ "ms.", isError := false }
    else
      { text := "No matches found", isError := false }
  else
    { text := formatResults results, isError := false }

/-- C10: withTimeout never rejects — every outcome of the wrapped
operation yields a resolved promise; a rejection at any time, arbitrarily
far before the deadline, resolves the default fallback value exactly as a
timeout does; and consequently handleSearchCode produces the identical
response for an operation failure, a hung (timed-out) operation, and a
genuinely empty result. -/
theorem withTimeout_never_rejects :
    (∀ (operation : Outcome (List SearchHit)) (timeoutMs : Nat)
        (defaultValue : List SearchHit),
      ∃ v, withTimeout operation timeoutMs defaultValue = Settle.resolved v) ∧
    (∀ (t timeoutMs : Nat) (e : String) (defaultValue : List SearchHit),
      withTimeout (Outcome.rejects t e) timeoutMs defaultValue =
        Settle.resolved defaultValue) ∧
    (∀ (timeoutMsArg : Option Nat) (t : Nat) (e : String),
      handleSearchCode (Outcome.rejects t e) timeoutMsArg =
        handleSearchCode Outcome.hangs timeoutMsArg ∧
      handleSearchCode (Outcome.rejects t e) timeoutMsArg =
        handleSearchCode (Outcome.resolves 0 []) timeoutMsArg) := by
  refine ⟨?_, ?_, ?_⟩
  · intro operation timeoutMs defaultValue
    cases operation with
    | resolves t v =>
      by_cases ht : t < timeoutMs
      · exact ⟨v, by simp [withTimeout, ht]⟩
      · exact ⟨defaultValue, by simp [withTimeout, ht]⟩
    | rejects t e => exact ⟨defaultValue, rfl⟩
    | hangs => exact ⟨defaultValue, rfl⟩
  · intro t timeoutMs e defaultValue
    rfl
  · intro timeoutMsArg t e
    constructor
    · rfl
    · cases timeoutMsArg with
      | none => rfl
      | some tm => simp only [handleSearchCode, withTimeout, ite_self]
